import Mathlib

/-!
Verification of the scubaclub translation/slug subsystem.

This file gives a shallow embedding of the translation, slug-assignment,
suggestion-merge, and club-membership logic of the scubaclub web
application (files `website/models.py`, `website/forms.py`,
`website/views.py`), and proves or refutes the frozen claims about it.

Modelling conventions:
- database tables become Lean lists of structure values; rows are keyed by
  entity id and language code, mirroring the `unique_together` constraints;
- Python strings become `String`, nullable columns become `Option`;
  `DecimalField` coordinates are carried as `Option Int` (only presence
  and propagation of the value matter to the claims, never arithmetic);
- the per-language `try/except ... logger.error` blocks of
  `_save_translations` become explicitly caught `Except` computations;
- `str(n)` / f-string interpolation of an integer becomes `natToStr`,
  a decimal rendering defined below;
- `django.utils.text.slugify` (an external library call) is embedded for
  ASCII input following its documented algorithm: drop non-ASCII, lower,
  drop characters outside word/space/hyphen, collapse runs of
  hyphens/whitespace to a single hyphen, strip leading/trailing `-`/`_`.
-/

/-- Decimal digit to character, the ASCII digit table used by `str(int)`. -/
def digitChar (d : Nat) : Char :=
  match d with
  | 0 => '0' | 1 => '1' | 2 => '2' | 3 => '3' | 4 => '4'
  | 5 => '5' | 6 => '6' | 7 => '7' | 8 => '8' | 9 => '9'
  | _ => 'x'

/-- Numeric value of a digit character. -/
def digitVal (c : Char) : Nat := c.toNat - 48

/-- Fuel-indexed decimal rendering of a natural number (most significant
digit first), the core of Python `str(int)` for nonnegative input. -/
def natToStrAux : Nat → Nat → List Char
  | 0, _ => []
  | fuel + 1, n =>
    if n < 10 then [digitChar n]
    else natToStrAux fuel (n / 10) ++ [digitChar (n % 10)]

/-- Decimal digit list of `n`; fuel `n + 1` always suffices. -/
def natToStrData (n : Nat) : List Char := natToStrAux (n + 1) n

/-- Embedding of Python `str(n)` for a nonnegative integer `n`. -/
def natToStr (n : Nat) : String := ⟨natToStrData n⟩

/-- Left-to-right decimal parse, used only to invert `natToStr`. -/
def parseNat (l : List Char) : Nat := l.foldl (fun a c => a * 10 + digitVal c) 0

theorem digitVal_digitChar {d : Nat} (h : d < 10) : digitVal (digitChar d) = d := by
  interval_cases d <;> rfl

theorem parseNat_append_digit (l : List Char) (c : Char) :
    parseNat (l ++ [c]) = parseNat l * 10 + digitVal c := by
  simp [parseNat, List.foldl_append]

theorem parseNat_natToStrAux : ∀ (fuel n : Nat), n < 10 ^ fuel →
    parseNat (natToStrAux fuel n) = n := by
  intro fuel
  induction fuel with
  | zero =>
    intro n h
    interval_cases n
    rfl
  | succ f ih =>
    intro n h
    rw [natToStrAux]
    by_cases h10 : n < 10
    · simp only [if_pos h10]
      show parseNat ([] ++ [digitChar n]) = n
      rw [parseNat_append_digit, digitVal_digitChar h10]
      simp [parseNat]
    · simp only [if_neg h10]
      rw [parseNat_append_digit, digitVal_digitChar (Nat.mod_lt n (by omega)),
        ih (n / 10) ?_]
      · omega
      · have : n < 10 ^ f * 10 := by
          have : 10 ^ (f + 1) = 10 ^ f * 10 := by ring
          omega
        exact (Nat.div_lt_iff_lt_mul (by omega)).mpr this

theorem parseNat_natToStrData (n : Nat) : parseNat (natToStrData n) = n := by
  have hn : n < 10 ^ (n + 1) := by
    calc n < 10 ^ n := Nat.lt_pow_self (by norm_num) n
    _ ≤ 10 ^ (n + 1) := Nat.pow_le_pow_right (by norm_num) (by omega)
  exact parseNat_natToStrAux (n + 1) n hn

theorem natToStrData_injective {a b : Nat} (h : natToStrData a = natToStrData b) :
    a = b := by
  have := congrArg parseNat h
  rwa [parseNat_natToStrData, parseNat_natToStrData] at this

theorem natToStr_injective {a b : Nat} (h : natToStr a = natToStr b) : a = b := by
  apply natToStrData_injective
  have : (natToStr a).data = (natToStr b).data := congrArg String.data h
  simpa [natToStr] using this

theorem natToStrAux_ne_nil (f n : Nat) : natToStrAux (f + 1) n ≠ [] := by
  rw [natToStrAux]
  by_cases h : n < 10 <;> simp [h]

theorem natToStrData_ne_nil (n : Nat) : natToStrData n ≠ [] :=
  natToStrAux_ne_nil n n

/-- ASCII lower-casing, the ASCII case of Python `str.lower()`. -/
def asciiLower (c : Char) : Char :=
  if 65 ≤ c.toNat ∧ c.toNat ≤ 90 then Char.ofNat (c.toNat + 32) else c

/-- ASCII whitespace recognized by Python's `\s` and `str.strip()`:
space, tab, newline, carriage return, vertical tab, form feed. -/
def isPySpace (c : Char) : Bool :=
  c == ' ' || c == '\t' || c == '\n' || c == '\r' ||
  c.toNat == 11 || c.toNat == 12

/-- Embedding of Python `str.strip()` (no arguments) for ASCII text. -/
def pyStrip (s : String) : String :=
  ⟨((s.data.dropWhile isPySpace).reverse.dropWhile isPySpace).reverse⟩

/-- Characters kept by slugify's `re.sub(r"[^\w\s-]", "", ...)` step. -/
def isSlugKeep (c : Char) : Bool :=
  c.isAlphanum || c == '_' || c == '-' || isPySpace c

/-- Characters collapsed by slugify's `re.sub(r"[-\s]+", "-", ...)` step. -/
def isDashSpace (c : Char) : Bool := c == '-' || isPySpace c

/-- Collapse every run of hyphens/whitespace into a single hyphen. -/
def collapseRuns (l : List Char) : List Char :=
  l.foldr
    (fun c acc =>
      if isDashSpace c then
        match acc with
        | '-' :: _ => acc
        | _ => '-' :: acc
      else c :: acc)
    []

/-- Drop leading and trailing `-` and `_`, slugify's final `.strip("-_")`. -/
def stripDashUnderscore (l : List Char) : List Char :=
  ((l.dropWhile fun c => c == '-' || c == '_').reverse.dropWhile
    fun c => c == '-' || c == '_').reverse

/-- Embedding of `django.utils.text.slugify` (default `allow_unicode=False`)
for ASCII input: non-ASCII characters are dropped (the NFKD/ascii-encode
step), the rest is lowered, filtered to word/space/hyphen characters,
runs of hyphens/whitespace collapse to one hyphen, and leading/trailing
hyphens/underscores are stripped. -/
def slugify (s : String) : String :=
  ⟨stripDashUnderscore (collapseRuns
    (((s.data.filter fun c => c.toNat < 128).map asciiLower).filter isSlugKeep))⟩

example : slugify "Duikclub Noord" = "duikclub-noord" := by decide
example : pyStrip "  Duikclub Noord " = "Duikclub Noord" := by decide
example : natToStr 1 = "1" ∧ natToStr 42 = "42" ∧ natToStr 0 = "0" := by decide

/-!
Slug assignment. Both `DiveClubForm._save_translations`,
`DiveLocationForm._save_translations` and
`DiveLocationSuggestion.apply_changes` contain the same collision loop:

    original_slug = translation.slug
    counter = 1
    while <translation.slug taken by another entity in this language>:
        translation.slug = f"{original_slug}-{counter}"
        counter += 1

`slugCand base k` is the k-th candidate tried by that loop (`base`,
`base-1`, `base-2`, ...). `assignFrom taken base fuel k` runs the loop
from candidate `k`; the database query is abstracted as `taken`. The
source loop has no fuel: it stops at the first free candidate, which by
the pigeonhole argument below is always reached within
`(number of rows) + 1` steps, the fuel the instantiations pass. -/

/-- The k-th slug candidate tried by the collision loop. -/
def slugCand (base : String) : Nat → String
  | 0 => base
  | k + 1 => base ++ "-" ++ natToStr (k + 1)

/-- The collision loop of the slug assignment, starting at candidate `k`
with `fuel` remaining iterations. -/
def assignFrom (taken : String → Bool) (base : String) : Nat → Nat → String
  | 0, k => slugCand base k
  | fuel + 1, k =>
    if taken (slugCand base k) then assignFrom taken base fuel (k + 1)
    else slugCand base k

theorem string_data_append (a b : String) : (a ++ b).data = a.data ++ b.data := by
  cases a; cases b; rfl

theorem slugCand_injective (base : String) : Function.Injective (slugCand base) := by
  intro i j h
  match i, j with
  | 0, 0 => rfl
  | 0, j + 1 =>
    exfalso
    have hd := congrArg String.data h
    simp only [slugCand, string_data_append] at hd
    have := congrArg List.length hd
    simp only [List.length_append] at this
    have hne := natToStrData_ne_nil (j + 1)
    have : (natToStr (j + 1)).data.length ≠ 0 := by
      simpa [natToStr] using fun hh => hne (List.eq_nil_of_length_eq_zero hh)
    simp only [String.data] at this ⊢
    omega
  | i + 1, 0 =>
    exfalso
    have hd := congrArg String.data h
    simp only [slugCand, string_data_append] at hd
    have := congrArg List.length hd
    simp only [List.length_append] at this
    have hne := natToStrData_ne_nil (i + 1)
    have : (natToStr (i + 1)).data.length ≠ 0 := by
      simpa [natToStr] using fun hh => hne (List.eq_nil_of_length_eq_zero hh)
    omega
  | i + 1, j + 1 =>
    have hd := congrArg String.data h
    simp only [slugCand, string_data_append, List.append_assoc] at hd
    have h2 : (natToStr (i + 1)).data = (natToStr (j + 1)).data :=
      List.append_cancel_left (List.append_cancel_left hd)
    have : natToStr (i + 1) = natToStr (j + 1) := String.ext h2
    have := natToStr_injective this
    omega

/-- Pigeonhole: among the first `slugs.length + 1` candidates, at least
one is not in `slugs` (the candidates are pairwise distinct strings). -/
theorem exists_cand_not_mem (slugs : List String) (base : String) :
    ∃ j, j ≤ slugs.length ∧ slugCand base j ∉ slugs := by
  by_contra hcon
  push_neg at hcon
  have hsub : (Finset.range (slugs.length + 1)).image (slugCand base) ⊆
      slugs.toFinset := by
    intro s hs
    rcases Finset.mem_image.mp hs with ⟨j, hj, rfl⟩
    exact List.mem_toFinset.mpr (hcon j (by
      have := Finset.mem_range.mp hj; omega))
  have h1 : ((Finset.range (slugs.length + 1)).image (slugCand base)).card =
      slugs.length + 1 := by
    rw [Finset.card_image_of_injective _ (slugCand_injective base),
      Finset.card_range]
  have h2 := Finset.card_le_card hsub
  have h3 := slugs.toFinset_card_le
  omega

/-- If some candidate with index in `[k, k + fuel]` is free, the loop
result is free. -/
theorem assignFrom_not_taken (taken : String → Bool) (base : String) :
    ∀ (fuel k : Nat),
      (∃ j, k ≤ j ∧ j ≤ k + fuel ∧ taken (slugCand base j) = false) →
      taken (assignFrom taken base fuel k) = false := by
  intro fuel
  induction fuel with
  | zero =>
    intro k ⟨j, h1, h2, h3⟩
    have : j = k := by omega
    subst this
    simpa [assignFrom] using h3
  | succ f ih =>
    intro k ⟨j, h1, h2, h3⟩
    rw [assignFrom]
    by_cases hk : taken (slugCand base k) = true
    · simp only [if_pos hk]
      apply ih
      refine ⟨j, ?_, by omega, h3⟩
      rcases Nat.eq_or_lt_of_le h1 with rfl | hlt
      · rw [hk] at h3; exact absurd h3 (by simp)
      · omega
    · simp only [Bool.not_eq_true] at hk
      simp [hk]

/-- The loop result does not depend on the fuel, provided both fuels are
enough to reach a free candidate. -/
theorem assignFrom_fuel_irrel (taken : String → Bool) (base : String) :
    ∀ (fuel fuel' k : Nat),
      (∃ j, k ≤ j ∧ j ≤ k + fuel ∧ j ≤ k + fuel' ∧
        taken (slugCand base j) = false) →
      assignFrom taken base fuel k = assignFrom taken base fuel' k := by
  intro fuel
  induction fuel with
  | zero =>
    intro fuel' k ⟨j, h1, h2, h3, h4⟩
    have : j = k := by omega
    subst this
    cases fuel' with
    | zero => rfl
    | succ f' =>
      rw [assignFrom, assignFrom, h4]
      simp
  | succ f ih =>
    intro fuel' k ⟨j, h1, h2, h3, h4⟩
    cases fuel' with
    | zero =>
      have : j = k := by omega
      subst this
      rw [assignFrom, assignFrom, h4]
      simp
    | succ f' =>
      rw [assignFrom, assignFrom]
      by_cases hk : taken (slugCand base k) = true
      · simp only [if_pos hk]
        apply ih
        refine ⟨j, ?_, by omega, by omega, h4⟩
        rcases Nat.eq_or_lt_of_le h1 with rfl | hlt
        · rw [hk] at h4; exact absurd h4 (by simp)
        · omega
      · simp only [Bool.not_eq_true] at hk
        simp [hk]

/-!
The `DiveClubTranslation` table (`models.py`): rows keyed by
`(dive_club, language)` with `unique_together`, carrying name,
description and a per-language slug. -/

/-- A `DiveClubTranslation` row. -/
structure ClubTr where
  clubId : Nat
  lang : String
  name : String
  description : String
  slug : String
  deriving DecidableEq, Repr

/-- The query `DiveClubTranslation.objects.filter(language=lang,
slug=slug).exclude(dive_club=self).exists()` of the collision loop. -/
def clubSlugTaken (rows : List ClubTr) (lang slug : String) (self : Nat) : Bool :=
  rows.any fun r => r.lang == lang && r.slug == slug && r.clubId != self

/-- The slug collision loop of `DiveClubForm._save_translations` for one
language: start from the candidate `base` and increment until free. -/
def clubAssignSlug (rows : List ClubTr) (lang : String) (self : Nat)
    (base : String) : String :=
  assignFrom (fun s => clubSlugTaken rows lang s self) base (rows.length + 1) 0

/-- Slugs of rows that the collision check counts as taken. -/
def clubTakenSlugs (rows : List ClubTr) (lang : String) (self : Nat) :
    List String :=
  (rows.filter fun r => r.lang == lang && r.clubId != self).map (·.slug)

theorem clubSlugTaken_mem {rows : List ClubTr} {lang slug : String} {self : Nat}
    (h : clubSlugTaken rows lang slug self = true) :
    slug ∈ clubTakenSlugs rows lang self := by
  rcases List.any_eq_true.mp h with ⟨r, hr, hp⟩
  simp only [Bool.and_eq_true, beq_iff_eq, bne_iff_ne] at hp
  refine List.mem_map.mpr ⟨r, List.mem_filter.mpr ⟨hr, ?_⟩, hp.1.2⟩
  simp only [Bool.and_eq_true, beq_iff_eq, bne_iff_ne]
  exact ⟨hp.1.1, hp.2⟩

theorem clubTakenSlugs_length_le (rows : List ClubTr) (lang : String)
    (self : Nat) : (clubTakenSlugs rows lang self).length ≤ rows.length := by
  simpa [clubTakenSlugs] using List.length_filter_le _ rows

theorem clubSlugTaken_exists_free (rows : List ClubTr) (lang : String)
    (self : Nat) (base : String) :
    ∃ j, j ≤ rows.length ∧
      clubSlugTaken rows lang (slugCand base j) self = false := by
  rcases exists_cand_not_mem (clubTakenSlugs rows lang self) base with
    ⟨j, hj, hmem⟩
  refine ⟨j, le_trans hj (clubTakenSlugs_length_le rows lang self), ?_⟩
  by_contra hcon
  exact hmem (clubSlugTaken_mem (by
    cases h : clubSlugTaken rows lang (slugCand base j) self
    · exact absurd h hcon
    · rfl))

/-- The assigned club slug is never taken by another club in the same
language. -/
theorem clubAssignSlug_not_taken (rows : List ClubTr) (lang : String)
    (self : Nat) (base : String) :
    clubSlugTaken rows lang (clubAssignSlug rows lang self base) self = false := by
  rcases clubSlugTaken_exists_free rows lang self base with ⟨j, hj, hfree⟩
  exact assignFrom_not_taken (fun s => clubSlugTaken rows lang s self) base
    (rows.length + 1) 0 ⟨j, by omega, by omega, hfree⟩

theorem clubAssignSlug_ne_slug {rows : List ClubTr} {lang : String}
    {self : Nat} {base : String} {r : ClubTr} (hr : r ∈ rows)
    (hlang : r.lang = lang) (hid : r.clubId ≠ self) :
    r.slug ≠ clubAssignSlug rows lang self base := by
  intro heq
  have := clubAssignSlug_not_taken rows lang self base
  rw [clubSlugTaken, List.any_eq_false] at this
  have hx := this r hr
  apply hx
  simp only [Bool.and_eq_true, beq_iff_eq, bne_iff_ne]
  exact ⟨⟨hlang, heq⟩, hid⟩

/-- Pointwise-equal predicates give equal `any` results. -/
theorem list_any_ext {α : Type} (p q : α → Bool) :
    ∀ l : List α, (∀ x ∈ l, p x = q x) → l.any p = l.any q := by
  intro l
  induction l with
  | nil => intro _; rfl
  | cons a t ih =>
    intro h
    simp only [List.any_cons]
    rw [h a (by simp), ih fun x hx => h x (by simp [hx])]

/-- Key predicate of `get_or_create(dive_club=..., language=...)`. -/
def clubKey (t : ClubTr) (cid : Nat) (lang : String) : Bool :=
  t.clubId == cid && t.lang == lang

/-- Net database effect of `get_or_create` followed by field updates and
`save()`: replace the row with this `(dive_club, language)` key, or insert
it when absent. -/
def upsertClubTr (rows : List ClubTr) (r : ClubTr) : List ClubTr :=
  if rows.any fun t => clubKey t r.clubId r.lang then
    rows.map fun t => if clubKey t r.clubId r.lang then r else t
  else rows ++ [r]

theorem clubKey_self (r : ClubTr) : clubKey r r.clubId r.lang = true := by
  simp [clubKey]

theorem clubSlugTaken_upsert_self (rows : List ClubTr) (r : ClubTr)
    (lang slug : String) (self : Nat) (hid : r.clubId = self) :
    clubSlugTaken (upsertClubTr rows r) lang slug self =
      clubSlugTaken rows lang slug self := by
  subst hid
  unfold upsertClubTr
  by_cases hany : (rows.any fun t => clubKey t r.clubId r.lang) = true
  · simp only [if_pos hany, clubSlugTaken, List.any_map]
    apply list_any_ext
    intro t ht
    by_cases hk : clubKey t r.clubId r.lang = true
    · have hcid : t.clubId = r.clubId := by
        have h2 := hk
        simp only [clubKey, Bool.and_eq_true, beq_iff_eq] at h2
        exact h2.1
      simp [Function.comp, hk, hcid]
    · simp only [Bool.not_eq_true] at hk
      simp [Function.comp, hk]
  · simp only [if_neg hany, clubSlugTaken, List.any_append]
    simp

theorem length_le_upsertClubTr (rows : List ClubTr) (r : ClubTr) :
    rows.length ≤ (upsertClubTr rows r).length := by
  unfold upsertClubTr
  by_cases hany : (rows.any fun t => clubKey t r.clubId r.lang) = true
  · simp [hany]
  · simp [hany]

theorem mem_upsertClubTr {rows : List ClubTr} {r x : ClubTr}
    (hx : x ∈ upsertClubTr rows r) :
    x = r ∨ (x ∈ rows ∧ clubKey x r.clubId r.lang = false) := by
  unfold upsertClubTr at hx
  by_cases hany : (rows.any fun t => clubKey t r.clubId r.lang) = true
  · rw [if_pos hany] at hx
    rcases List.mem_map.mp hx with ⟨t, ht, heq⟩
    by_cases hk : clubKey t r.clubId r.lang = true
    · rw [if_pos hk] at heq
      exact Or.inl heq.symm
    · rw [if_neg hk] at heq
      subst heq
      exact Or.inr ⟨ht, by simpa using hk⟩
  · rw [if_neg hany] at hx
    rcases List.mem_append.mp hx with h | h
    · refine Or.inr ⟨h, ?_⟩
      have := List.any_eq_false.mp (by simpa using hany) x h
      simpa using this
    · simp only [List.mem_singleton] at h
      exact Or.inl h

theorem upsertClubTr_idem (rows : List ClubTr) (r : ClubTr) :
    upsertClubTr (upsertClubTr rows r) r = upsertClubTr rows r := by
  have hstep : ∀ l : List ClubTr,
      (l.any fun t => clubKey t r.clubId r.lang) = true →
      upsertClubTr l r = l.map fun t => if clubKey t r.clubId r.lang then r else t := by
    intro l hl
    unfold upsertClubTr
    rw [if_pos hl]
  have hany2 : ((upsertClubTr rows r).any fun t =>
      clubKey t r.clubId r.lang) = true := by
    unfold upsertClubTr
    by_cases hany : (rows.any fun t => clubKey t r.clubId r.lang) = true
    · rw [if_pos hany, List.any_map]
      rcases List.any_eq_true.mp hany with ⟨t, ht, hk⟩
      exact List.any_eq_true.mpr ⟨t, ht, by simp [Function.comp, hk, clubKey_self r]⟩
    · rw [if_neg hany, List.any_append]
      simp [clubKey_self r]
  rw [hstep _ hany2]
  have hid : ∀ t ∈ upsertClubTr rows r,
      (if clubKey t r.clubId r.lang then r else t) = t := by
    intro t ht
    rcases mem_upsertClubTr ht with rfl | ⟨_, hk⟩
    · simp [clubKey_self]
    · simp [hk]
  rw [List.map_congr_left hid]
  simp

/-!
`DiveClubForm._save_translations` (`forms.py` lines 118-205): two
sequential `try/except` blocks, one per language. Each block reads the
stripped form fields, `get_or_create`s the translation row, overwrites
name/description, computes the slug with the collision loop and saves.
An exception inside a block is caught and logged
(`logger.error(...)`), and execution continues with the next block. -/

/-- Body of the Dutch `try` block of `DiveClubForm._save_translations`.
The Dutch row is created/updated unconditionally; an empty name falls
back to the slug `club-{id}`. -/
def saveClubNlBlock (rows : List ClubTr) (clubId : Nat)
    (nameNl descNl : String) : List ClubTr :=
  let nlName := pyStrip nameNl
  let nlDesc := pyStrip descNl
  let base := if nlName ≠ "" then slugify nlName else "club-" ++ natToStr clubId
  let slug := clubAssignSlug rows "nl" clubId base
  upsertClubTr rows
    { clubId := clubId, lang := "nl", name := nlName, description := nlDesc,
      slug := slug }

/-- Body of the English `try` block of `DiveClubForm._save_translations`.
The English row is only created/updated when the English name is
non-empty. -/
def saveClubEnBlock (rows : List ClubTr) (clubId : Nat)
    (nameEn descEn : String) : List ClubTr :=
  let enName := pyStrip nameEn
  let enDesc := pyStrip descEn
  if enName ≠ "" then
    let slug := clubAssignSlug rows "en" clubId (slugify enName)
    upsertClubTr rows
      { clubId := clubId, lang := "en", name := enName, description := enDesc,
        slug := slug }
  else rows

/-- Run one `try/except Exception: logger.error(...)` block: on an
exception the database keeps the state it had when the block started. -/
def runCaught {α : Type} (rows : α)
    (block : α → Except String α) : α :=
  match block rows with
  | Except.ok next => next
  | Except.error _ => rows

/-- The two sequential caught blocks of `DiveClubForm._save_translations`;
the blocks are parameters so that an exception inside either can be
modelled. -/
def saveClubTranslationsWith (rows : List ClubTr)
    (nlBlock enBlock : List ClubTr → Except String (List ClubTr)) :
    List ClubTr :=
  runCaught (runCaught rows nlBlock) enBlock

/-- `DiveClubForm._save_translations` on the translation table, with both
block bodies running without exception. -/
def saveClubTranslations (rows : List ClubTr) (clubId : Nat)
    (nameNl descNl nameEn descEn : String) : List ClubTr :=
  saveClubTranslationsWith rows
    (fun db => Except.ok (saveClubNlBlock db clubId nameNl descNl))
    (fun db => Except.ok (saveClubEnBlock db clubId nameEn descEn))

example :
    saveClubTranslations [] 1 "Duikclub Noord" "" "" "" =
      [⟨1, "nl", "Duikclub Noord", "", "duikclub-noord"⟩] := by decide

example :
    saveClubTranslations
      [⟨1, "nl", "Duikclub Noord", "", "duikclub-noord"⟩] 2
      "Duikclub Noord" "" "" "" =
      [⟨1, "nl", "Duikclub Noord", "", "duikclub-noord"⟩,
       ⟨2, "nl", "Duikclub Noord", "", "duikclub-noord-1"⟩] := by decide

theorem clubSlugTaken_false_ne {rows : List ClubTr} {lang slug : String}
    {self : Nat} (hfree : clubSlugTaken rows lang slug self = false)
    {x : ClubTr} (hx : x ∈ rows) (hlang : x.lang = lang)
    (hid : x.clubId ≠ self) : x.slug ≠ slug := by
  intro heq
  rw [clubSlugTaken, List.any_eq_false] at hfree
  have hp := hfree x hx
  apply hp
  simp only [Bool.and_eq_true, beq_iff_eq, bne_iff_ne]
  exact ⟨⟨hlang, heq⟩, hid⟩

/-- Rewriting the collision check for an upsert of the entity's own row:
the query excludes the entity itself, so the result is unchanged. -/
theorem clubAssignSlug_upsert_self (rows : List ClubTr) (r : ClubTr)
    (lang : String) (self : Nat) (base : String) (hid : r.clubId = self) :
    clubAssignSlug (upsertClubTr rows r) lang self base =
      clubAssignSlug rows lang self base := by
  have hfun : (fun s => clubSlugTaken (upsertClubTr rows r) lang s self) =
      fun s => clubSlugTaken rows lang s self :=
    funext fun s => clubSlugTaken_upsert_self rows r lang s self hid
  unfold clubAssignSlug
  rw [hfun]
  rcases clubSlugTaken_exists_free rows lang self base with ⟨j, hj, hfree⟩
  have hlen := length_le_upsertClubTr rows r
  exact assignFrom_fuel_irrel _ base _ _ 0 ⟨j, by omega, by omega, by omega, hfree⟩

/-- Re-running the Dutch save block with the same inputs reproduces the
same row, slug included: the collision check excludes the entity's own
row, so the slug it already occupies is not treated as a conflict. -/
theorem saveClubNlBlock_idem (rows : List ClubTr) (cid : Nat)
    (n d : String) :
    saveClubNlBlock (saveClubNlBlock rows cid n d) cid n d =
      saveClubNlBlock rows cid n d := by
  simp only [saveClubNlBlock]
  rw [clubAssignSlug_upsert_self rows _ "nl" cid _ rfl, upsertClubTr_idem]

/-- Per-language slug uniqueness of a club translation table: distinct
clubs translated into the same language carry distinct slugs. -/
def clubSlugsOk (rows : List ClubTr) : Prop :=
  ∀ r1 ∈ rows, ∀ r2 ∈ rows,
    r1.lang = r2.lang → r1.clubId ≠ r2.clubId → r1.slug ≠ r2.slug

theorem clubSlugsOk_upsert {rows : List ClubTr} {r : ClubTr}
    (hok : clubSlugsOk rows)
    (hfree : clubSlugTaken rows r.lang r.slug r.clubId = false) :
    clubSlugsOk (upsertClubTr rows r) := by
  intro r1 h1 r2 h2 hlang hid
  rcases mem_upsertClubTr h1 with rfl | ⟨h1m, _⟩
  · rcases mem_upsertClubTr h2 with rfl | ⟨h2m, _⟩
    · exact absurd rfl hid
    · exact fun heq =>
        clubSlugTaken_false_ne hfree h2m hlang.symm (Ne.symm hid) heq.symm
  · rcases mem_upsertClubTr h2 with rfl | ⟨h2m, _⟩
    · exact clubSlugTaken_false_ne hfree h1m hlang hid
    · exact hok r1 h1m r2 h2m hlang hid

theorem clubSlugsOk_saveClubNlBlock (rows : List ClubTr) (cid : Nat)
    (n d : String) (hok : clubSlugsOk rows) :
    clubSlugsOk (saveClubNlBlock rows cid n d) := by
  simp only [saveClubNlBlock]
  exact clubSlugsOk_upsert hok (clubAssignSlug_not_taken rows "nl" cid _)

theorem clubSlugsOk_saveClubEnBlock (rows : List ClubTr) (cid : Nat)
    (n d : String) (hok : clubSlugsOk rows) :
    clubSlugsOk (saveClubEnBlock rows cid n d) := by
  simp only [saveClubEnBlock]
  by_cases h : pyStrip n ≠ ""
  · simp only [if_pos h]
    exact clubSlugsOk_upsert hok (clubAssignSlug_not_taken rows "en" cid _)
  · simp only [if_neg h]
    exact hok

theorem clubSlugsOk_saveClubTranslations (rows : List ClubTr) (cid : Nat)
    (nameNl descNl nameEn descEn : String) (hok : clubSlugsOk rows) :
    clubSlugsOk (saveClubTranslations rows cid nameNl descNl nameEn descEn) := by
  unfold saveClubTranslations saveClubTranslationsWith runCaught
  exact clubSlugsOk_saveClubEnBlock _ cid nameEn descEn
    (clubSlugsOk_saveClubNlBlock rows cid nameNl descNl hok)

/-!
The `DiveLocationTranslation` table (`models.py`): rows keyed by
`(dive_location, language)` with `unique_together`, carrying the
translated text fields and the per-language slug. -/

/-- A `DiveLocationTranslation` row. -/
structure LocTr where
  locId : Nat
  lang : String
  name : String
  description : String
  dangers : String
  nicknames : String
  address : String
  parking : String
  sight : String
  maxDepth : String
  bottomType : String
  typeOfWater : String
  slug : String
  deriving DecidableEq, Repr

/-- The query `DiveLocationTranslation.objects.filter(language=lang,
slug=slug).exclude(dive_location=self).exists()` of the collision loop. -/
def locSlugTaken (rows : List LocTr) (lang slug : String) (self : Nat) : Bool :=
  rows.any fun r => r.lang == lang && r.slug == slug && r.locId != self

/-- The slug collision loop of `DiveLocationForm._save_translations` and
`DiveLocationSuggestion.apply_changes`. -/
def locAssignSlug (rows : List LocTr) (lang : String) (self : Nat)
    (base : String) : String :=
  assignFrom (fun s => locSlugTaken rows lang s self) base (rows.length + 1) 0

/-- Slugs of rows that the location collision check counts as taken. -/
def locTakenSlugs (rows : List LocTr) (lang : String) (self : Nat) :
    List String :=
  (rows.filter fun r => r.lang == lang && r.locId != self).map (·.slug)

theorem locSlugTaken_mem {rows : List LocTr} {lang slug : String} {self : Nat}
    (h : locSlugTaken rows lang slug self = true) :
    slug ∈ locTakenSlugs rows lang self := by
  rcases List.any_eq_true.mp h with ⟨r, hr, hp⟩
  simp only [Bool.and_eq_true, beq_iff_eq, bne_iff_ne] at hp
  refine List.mem_map.mpr ⟨r, List.mem_filter.mpr ⟨hr, ?_⟩, hp.1.2⟩
  simp only [Bool.and_eq_true, beq_iff_eq, bne_iff_ne]
  exact ⟨hp.1.1, hp.2⟩

theorem locTakenSlugs_length_le (rows : List LocTr) (lang : String)
    (self : Nat) : (locTakenSlugs rows lang self).length ≤ rows.length := by
  simpa [locTakenSlugs] using List.length_filter_le _ rows

theorem locSlugTaken_exists_free (rows : List LocTr) (lang : String)
    (self : Nat) (base : String) :
    ∃ j, j ≤ rows.length ∧
      locSlugTaken rows lang (slugCand base j) self = false := by
  rcases exists_cand_not_mem (locTakenSlugs rows lang self) base with
    ⟨j, hj, hmem⟩
  refine ⟨j, le_trans hj (locTakenSlugs_length_le rows lang self), ?_⟩
  by_contra hcon
  exact hmem (locSlugTaken_mem (by
    cases h : locSlugTaken rows lang (slugCand base j) self
    · exact absurd h hcon
    · rfl))

/-- The assigned location slug is never taken by another location in the
same language. -/
theorem locAssignSlug_not_taken (rows : List LocTr) (lang : String)
    (self : Nat) (base : String) :
    locSlugTaken rows lang (locAssignSlug rows lang self base) self = false := by
  rcases locSlugTaken_exists_free rows lang self base with ⟨j, hj, hfree⟩
  exact assignFrom_not_taken (fun s => locSlugTaken rows lang s self) base
    (rows.length + 1) 0 ⟨j, by omega, by omega, hfree⟩

theorem locSlugTaken_false_ne {rows : List LocTr} {lang slug : String}
    {self : Nat} (hfree : locSlugTaken rows lang slug self = false)
    {x : LocTr} (hx : x ∈ rows) (hlang : x.lang = lang)
    (hid : x.locId ≠ self) : x.slug ≠ slug := by
  intro heq
  rw [locSlugTaken, List.any_eq_false] at hfree
  have hp := hfree x hx
  apply hp
  simp only [Bool.and_eq_true, beq_iff_eq, bne_iff_ne]
  exact ⟨⟨hlang, heq⟩, hid⟩

/-- Key predicate of `get_or_create(dive_location=..., language=...)`. -/
def locKey (t : LocTr) (lid : Nat) (lang : String) : Bool :=
  t.locId == lid && t.lang == lang

/-- Net database effect of `get_or_create` plus field updates plus
`save()` on the location translation table. -/
def upsertLocTr (rows : List LocTr) (r : LocTr) : List LocTr :=
  if rows.any fun t => locKey t r.locId r.lang then
    rows.map fun t => if locKey t r.locId r.lang then r else t
  else rows ++ [r]

theorem locKey_self (r : LocTr) : locKey r r.locId r.lang = true := by
  simp [locKey]

theorem mem_upsertLocTr {rows : List LocTr} {r x : LocTr}
    (hx : x ∈ upsertLocTr rows r) :
    x = r ∨ (x ∈ rows ∧ locKey x r.locId r.lang = false) := by
  unfold upsertLocTr at hx
  by_cases hany : (rows.any fun t => locKey t r.locId r.lang) = true
  · rw [if_pos hany] at hx
    rcases List.mem_map.mp hx with ⟨t, ht, heq⟩
    by_cases hk : locKey t r.locId r.lang = true
    · rw [if_pos hk] at heq
      exact Or.inl heq.symm
    · rw [if_neg hk] at heq
      subst heq
      exact Or.inr ⟨ht, by simpa using hk⟩
  · rw [if_neg hany] at hx
    rcases List.mem_append.mp hx with h | h
    · refine Or.inr ⟨h, ?_⟩
      have := List.any_eq_false.mp (by simpa using hany) x h
      simpa using this
    · simp only [List.mem_singleton] at h
      exact Or.inl h

/-- Per-language slug uniqueness of the location translation table. -/
def locSlugsOk (rows : List LocTr) : Prop :=
  ∀ r1 ∈ rows, ∀ r2 ∈ rows,
    r1.lang = r2.lang → r1.locId ≠ r2.locId → r1.slug ≠ r2.slug

theorem locSlugsOk_upsert {rows : List LocTr} {r : LocTr}
    (hok : locSlugsOk rows)
    (hfree : locSlugTaken rows r.lang r.slug r.locId = false) :
    locSlugsOk (upsertLocTr rows r) := by
  intro r1 h1 r2 h2 hlang hid
  rcases mem_upsertLocTr h1 with rfl | ⟨h1m, _⟩
  · rcases mem_upsertLocTr h2 with rfl | ⟨h2m, _⟩
    · exact absurd rfl hid
    · exact fun heq =>
        locSlugTaken_false_ne hfree h2m hlang.symm (Ne.symm hid) heq.symm
  · rcases mem_upsertLocTr h2 with rfl | ⟨h2m, _⟩
    · exact locSlugTaken_false_ne hfree h1m hlang hid
    · exact hok r1 h1m r2 h2m hlang hid

/-- Body of the Dutch `try` block of
`DiveLocationForm._save_translations`: the Dutch row is only
created/updated when the stripped Dutch name is non-empty. -/
def saveLocNlBlock (rows : List LocTr) (locId : Nat)
    (nameNl descNl dangersNl nicknamesNl addressNl parkingNl sightNl
      maxDepthNl bottomTypeNl typeOfWaterNl : String) : List LocTr :=
  let nm := pyStrip nameNl
  if nm ≠ "" then
    let base := if nm ≠ "" then slugify nm else "location-" ++ natToStr locId
    let slug := locAssignSlug rows "nl" locId base
    upsertLocTr rows
      { locId := locId, lang := "nl", name := nm,
        description := pyStrip descNl, dangers := pyStrip dangersNl,
        nicknames := pyStrip nicknamesNl, address := pyStrip addressNl,
        parking := pyStrip parkingNl, sight := pyStrip sightNl,
        maxDepth := pyStrip maxDepthNl, bottomType := pyStrip bottomTypeNl,
        typeOfWater := pyStrip typeOfWaterNl, slug := slug }
  else rows

/-- Body of the English `try` block of
`DiveLocationForm._save_translations`. -/
def saveLocEnBlock (rows : List LocTr) (locId : Nat)
    (nameEn descEn dangersEn nicknamesEn addressEn parkingEn sightEn
      maxDepthEn bottomTypeEn typeOfWaterEn : String) : List LocTr :=
  let nm := pyStrip nameEn
  if nm ≠ "" then
    let base := if nm ≠ "" then slugify nm
      else "location-" ++ natToStr locId ++ "-en"
    let slug := locAssignSlug rows "en" locId base
    upsertLocTr rows
      { locId := locId, lang := "en", name := nm,
        description := pyStrip descEn, dangers := pyStrip dangersEn,
        nicknames := pyStrip nicknamesEn, address := pyStrip addressEn,
        parking := pyStrip parkingEn, sight := pyStrip sightEn,
        maxDepth := pyStrip maxDepthEn, bottomType := pyStrip bottomTypeEn,
        typeOfWater := pyStrip typeOfWaterEn, slug := slug }
  else rows

/-- The two sequential caught blocks of
`DiveLocationForm._save_translations` (`forms.py` lines 435-586): each
language's `try` body may raise, and a raise is caught and logged,
leaving the database as that block found it. -/
def saveLocTranslationsWith (rows : List LocTr)
    (nlBlock enBlock : List LocTr → Except String (List LocTr)) :
    List LocTr :=
  runCaught (runCaught rows nlBlock) enBlock

/-- `DiveLocationForm._save_translations` on the translation table, with
both block bodies running without exception. -/
def saveLocTranslations (rows : List LocTr) (locId : Nat)
    (nameNl descNl dangersNl nicknamesNl addressNl parkingNl sightNl
      maxDepthNl bottomTypeNl typeOfWaterNl
      nameEn descEn dangersEn nicknamesEn addressEn parkingEn sightEn
      maxDepthEn bottomTypeEn typeOfWaterEn : String) : List LocTr :=
  saveLocTranslationsWith rows
    (fun db => Except.ok (saveLocNlBlock db locId nameNl descNl dangersNl
      nicknamesNl addressNl parkingNl sightNl maxDepthNl bottomTypeNl
      typeOfWaterNl))
    (fun db => Except.ok (saveLocEnBlock db locId nameEn descEn dangersEn
      nicknamesEn addressEn parkingEn sightEn maxDepthEn bottomTypeEn
      typeOfWaterEn))

theorem locSlugsOk_saveLocNlBlock (rows : List LocTr) (lid : Nat)
    (a1 a2 a3 a4 a5 a6 a7 a8 a9 a10 : String) (hok : locSlugsOk rows) :
    locSlugsOk (saveLocNlBlock rows lid a1 a2 a3 a4 a5 a6 a7 a8 a9 a10) := by
  simp only [saveLocNlBlock]
  by_cases h : pyStrip a1 ≠ ""
  · simp only [if_pos h]
    exact locSlugsOk_upsert hok (locAssignSlug_not_taken rows "nl" lid _)
  · simp only [if_neg h]
    exact hok

theorem locSlugsOk_saveLocEnBlock (rows : List LocTr) (lid : Nat)
    (a1 a2 a3 a4 a5 a6 a7 a8 a9 a10 : String) (hok : locSlugsOk rows) :
    locSlugsOk (saveLocEnBlock rows lid a1 a2 a3 a4 a5 a6 a7 a8 a9 a10) := by
  simp only [saveLocEnBlock]
  by_cases h : pyStrip a1 ≠ ""
  · simp only [if_pos h]
    exact locSlugsOk_upsert hok (locAssignSlug_not_taken rows "en" lid _)
  · simp only [if_neg h]
    exact hok

/-!
`DiveLocation`, `DiveLocationSuggestion` and
`DiveLocationSuggestion.apply_changes` (`models.py` lines 71-331). -/

/-- Non-translatable fields of a `DiveLocation` row. The decimal
coordinates are carried as opaque `Option Int` payloads: only their
presence and propagation matter to the claims. -/
structure DiveLoc where
  locId : Nat
  country : Option Nat
  latitude : Option Int
  longitude : Option Int
  deriving DecidableEq, Repr

/-- A `DiveLocationSuggestion` row (the fields `apply_changes` reads).
Blank text fields are empty strings; nullable fields are `Option`. -/
structure Suggestion where
  targetLang : String
  suggestedName : String
  suggestedDescription : String
  suggestedDangers : String
  suggestedNicknames : String
  suggestedAddress : String
  suggestedParking : String
  suggestedSight : String
  suggestedMaxDepth : String
  suggestedBottomType : String
  suggestedTypeOfWater : String
  suggestedCountry : Option Nat
  suggestedLatitude : Option Int
  suggestedLongitude : Option Int
  status : String
  deriving DecidableEq, Repr

/-- The `filter(dive_location=..., language__code=...).first()` lookup on
the location translation table. -/
def locFindTr (rows : List LocTr) (lid : Nat) (lang : String) : Option LocTr :=
  rows.find? fun t => t.locId == lid && t.lang == lang

/-- The `if not created:` branch of `apply_changes`: each non-blank
suggested field overwrites the existing translation field; blank fields
keep the old value. -/
def mergeSuggestedTr (t : LocTr) (sug : Suggestion) : LocTr :=
  { t with
    name := if sug.suggestedName ≠ "" then sug.suggestedName else t.name,
    description := if sug.suggestedDescription ≠ "" then
      sug.suggestedDescription else t.description,
    dangers := if sug.suggestedDangers ≠ "" then
      sug.suggestedDangers else t.dangers,
    nicknames := if sug.suggestedNicknames ≠ "" then
      sug.suggestedNicknames else t.nicknames,
    address := if sug.suggestedAddress ≠ "" then
      sug.suggestedAddress else t.address,
    parking := if sug.suggestedParking ≠ "" then
      sug.suggestedParking else t.parking,
    sight := if sug.suggestedSight ≠ "" then
      sug.suggestedSight else t.sight,
    maxDepth := if sug.suggestedMaxDepth ≠ "" then
      sug.suggestedMaxDepth else t.maxDepth,
    bottomType := if sug.suggestedBottomType ≠ "" then
      sug.suggestedBottomType else t.bottomType,
    typeOfWater := if sug.suggestedTypeOfWater ≠ "" then
      sug.suggestedTypeOfWater else t.typeOfWater }

/-- The `defaults={...}` dictionary of the `get_or_create` in
`apply_changes` (`x or ''` is the identity on these string fields; a
blank suggested name falls back to the `Location {id}` placeholder). -/
def defaultSuggestedTr (lid : Nat) (lang : String) (sug : Suggestion) : LocTr :=
  { locId := lid, lang := lang,
    name := if sug.suggestedName ≠ "" then sug.suggestedName
      else "Location " ++ natToStr lid,
    description := sug.suggestedDescription,
    dangers := sug.suggestedDangers,
    nicknames := sug.suggestedNicknames,
    address := sug.suggestedAddress,
    parking := sug.suggestedParking,
    sight := sug.suggestedSight,
    maxDepth := sug.suggestedMaxDepth,
    bottomType := sug.suggestedBottomType,
    typeOfWater := sug.suggestedTypeOfWater,
    slug := "" }

/-- The `if translation.name:` slug step of `apply_changes`: slugify the
(possibly merged) name and run the collision loop; a blank name leaves
the slug untouched. -/
def applySuggestedSlug (rows : List LocTr) (lid : Nat) (lang : String)
    (tr : LocTr) : LocTr :=
  if tr.name ≠ "" then
    { tr with slug := locAssignSlug rows lang lid (slugify tr.name) }
  else tr

/-- `DiveLocationSuggestion.apply_changes`: when the status is
`approved`, overwrite each non-blank suggested field of the location and
of the target-language translation (creating the translation when
absent), recompute the slug, and save; any other status does nothing.
`apply_changes` never writes the suggestion row itself, so the state is
the location plus the translation table. -/
def applyChanges (loc : DiveLoc) (rows : List LocTr) (sug : Suggestion) :
    DiveLoc × List LocTr :=
  if sug.status == "approved" then
    let loc' : DiveLoc :=
      { loc with
        country := if sug.suggestedCountry.isSome then sug.suggestedCountry
          else loc.country,
        latitude := if sug.suggestedLatitude.isSome then sug.suggestedLatitude
          else loc.latitude,
        longitude := if sug.suggestedLongitude.isSome then
          sug.suggestedLongitude else loc.longitude }
    let tr0 :=
      match locFindTr rows loc.locId sug.targetLang with
      | some t => mergeSuggestedTr t sug
      | none => defaultSuggestedTr loc.locId sug.targetLang sug
    let tr1 := applySuggestedSlug rows loc.locId sug.targetLang tr0
    (loc', upsertLocTr rows tr1)
  else (loc, rows)

/-- `reject_location_suggestion` (`views.py` lines 509-516): set the
status to `rejected` and save the suggestion; nothing else is touched. -/
def rejectSuggestion (sug : Suggestion) : Suggestion :=
  { sug with status := "rejected" }

/-- `find?` over a map that replaces every key-matching element by `r`
returns `r` whenever some element matches. -/
theorem find?_map_replace {α : Type} (key : α → Bool) (r : α)
    (hr : key r = true) :
    ∀ rows : List α, rows.any key = true →
      (rows.map fun t => if key t then r else t).find? key = some r := by
  intro rows
  induction rows with
  | nil => intro h; simp at h
  | cons a rest ih =>
    intro h
    by_cases hk : key a = true
    · simp only [List.map_cons, if_pos hk]
      exact List.find?_cons_of_pos _ hr
    · simp only [List.map_cons, if_neg hk]
      rw [List.find?_cons_of_neg _ (by simpa using hk)]
      apply ih
      simpa [List.any_cons, hk] using h

/-- After upserting row `r`, looking up `r`'s key finds exactly `r`. -/
theorem locFindTr_upsert_self (rows : List LocTr) (r : LocTr) :
    locFindTr (upsertLocTr rows r) r.locId r.lang = some r := by
  have hr : locKey r r.locId r.lang = true := locKey_self r
  unfold locFindTr upsertLocTr
  by_cases hany : (rows.any fun t => locKey t r.locId r.lang) = true
  · rw [if_pos hany]
    exact find?_map_replace (fun t => locKey t r.locId r.lang) r hr rows hany
  · rw [if_neg hany]
    have hnone :
        rows.find? (fun t => t.locId == r.locId && t.lang == r.lang) = none := by
      rw [List.find?_eq_none]
      intro x hx
      have := List.any_eq_false.mp (by simpa using hany) x hx
      simpa [locKey] using this
    rw [List.find?_append, hnone]
    simp only [Option.none_or]
    exact List.find?_cons_of_pos ([] : List LocTr) hr

/-!
Name resolution (`models.py`): `get_name_for_language` on `DiveLocation`
(lines 93-100) and on `DiveClub` (lines 371-378): translation for the
requested language if present, else the Dutch translation, else a
synthesized placeholder. -/

/-- `DiveLocation.get_name_for_language`. -/
def locGetNameForLanguage (rows : List LocTr) (lid : Nat) (lang : String) :
    String :=
  match locFindTr rows lid lang with
  | some t => t.name
  | none =>
    match locFindTr rows lid "nl" with
    | some f => f.name
    | none => "Location " ++ natToStr lid

/-- The `filter(dive_club=..., language__code=...).first()` lookup on the
club translation table. -/
def clubFindTr (rows : List ClubTr) (cid : Nat) (lang : String) :
    Option ClubTr :=
  rows.find? fun t => t.clubId == cid && t.lang == lang

/-- `DiveClub.get_name_for_language`. -/
def clubGetNameForLanguage (rows : List ClubTr) (cid : Nat) (lang : String) :
    String :=
  match clubFindTr rows cid lang with
  | some t => t.name
  | none =>
    match clubFindTr rows cid "nl" with
    | some f => f.name
    | none => "Unnamed Club"

/-!
Listing filters (`models.py`): `DiveLocation.get_for_current_language`
(lines 169-179) and `DiveClub.get_for_current_language` (lines 400-428):
`filter(translations__language__code=lang, translations__name__isnull=
False).exclude(translations__language__code=lang, translations__name='')
.distinct()`.

The `filter` call spans the multivalued `translations` relation, so its
two conditions hold of the same translation row; `name__isnull=False` is
vacuous on a non-null column, leaving "has a row in the current
language". The `exclude` call also spans the multivalued relation, and
Django's documented `exclude` semantics there is the opposite of
`filter`'s: its conditions need not hold of the same row. The entity is
excluded when it has *some* row in the current language and *some* row
(in any language) with an empty name. -/

/-- The per-entity condition of `DiveLocation.get_for_current_language`:
the `filter` conjunct, and the negated `exclude` conjunct whose two
conditions range over possibly different translation rows. -/
def locAvailable (rows : List LocTr) (lid : Nat) (lang : String) : Bool :=
  (rows.any fun t => t.locId == lid && t.lang == lang) &&
  !((rows.any fun t => t.locId == lid && t.lang == lang) &&
    (rows.any fun t => t.locId == lid && t.name == ""))

/-- `DiveLocation.get_for_current_language` over the set of location ids. -/
def locGetForCurrentLanguage (rows : List LocTr) (ids : List Nat)
    (lang : String) : List Nat :=
  ids.filter fun i => locAvailable rows i lang

/-- The per-entity condition of `DiveClub.get_for_current_language`,
with the same `exclude`-over-multivalued-relation semantics. -/
def clubAvailable (rows : List ClubTr) (cid : Nat) (lang : String) : Bool :=
  (rows.any fun t => t.clubId == cid && t.lang == lang) &&
  !((rows.any fun t => t.clubId == cid && t.lang == lang) &&
    (rows.any fun t => t.clubId == cid && t.name == ""))

/-- `DiveClub.get_for_current_language` over the set of club ids. -/
def clubGetForCurrentLanguage (rows : List ClubTr) (ids : List Nat)
    (lang : String) : List Nat :=
  ids.filter fun i => clubAvailable rows i lang

/-!
Club membership (`models.py` `DiveClub`, `views.py` membership views).
The three many-to-many user sets are duplicate-free lists of user ids;
`add` is a no-op on an existing member, `remove` deletes the
relationship. Each view receives the caller, the target user and the
club's slug for the current language (used only to pick the redirect
target), and returns the new club state plus the HTTP outcome. -/

/-- The user sets and creator of a `DiveClub` row. -/
structure Club where
  clubId : Nat
  createdBy : Nat
  members : List Nat
  admins : List Nat
  pendingMembers : List Nat
  deriving DecidableEq, Repr

/-- Outcome of a membership view: 403, or a redirect to the club detail
page (when the club has a slug in the current language), or a redirect
to the club list. -/
inductive ViewResponse where
  | forbidden
  | redirectClubDetail (slug : String)
  | redirectDiveClubs
  deriving DecidableEq, Repr

/-- The shared redirect tail of the membership views:
`club_detail` when `get_slug_for_language` yields a slug, else the
`dive_clubs` list. -/
def redirectBack (slug? : Option String) : ViewResponse :=
  match slug? with
  | some s => ViewResponse.redirectClubDetail s
  | none => ViewResponse.redirectDiveClubs

/-- Many-to-many `add`: a no-op when the user is already present. -/
def addUser (l : List Nat) (u : Nat) : List Nat :=
  if l.contains u then l else l ++ [u]

/-- `DiveClub.save` (`models.py` lines 365-369): after the base save,
add the creator to the admins when absent. -/
def clubSave (club : Club) : Club :=
  { club with admins := addUser club.admins club.createdBy }

/-- `request_join_club` (`views.py` lines 200-212), POST branch. -/
def requestJoinClub (club : Club) (slug? : Option String) (caller : Nat) :
    Club × ViewResponse :=
  ({ club with pendingMembers := addUser club.pendingMembers caller },
    redirectBack slug?)

/-- `approve_member` (`views.py` lines 215-229). -/
def approveMember (club : Club) (slug? : Option String)
    (caller target : Nat) : Club × ViewResponse :=
  if !(club.admins.contains caller) then (club, ViewResponse.forbidden)
  else if club.pendingMembers.contains target then
    ({ club with
        pendingMembers := club.pendingMembers.erase target,
        members := addUser club.members target }, redirectBack slug?)
  else (club, redirectBack slug?)

/-- `promote_to_admin` (`views.py` lines 264-280). -/
def promoteToAdmin (club : Club) (slug? : Option String)
    (caller target : Nat) : Club × ViewResponse :=
  if !(club.admins.contains caller) then (club, ViewResponse.forbidden)
  else if club.members.contains target && !(club.admins.contains target) then
    let c1 := { club with admins := addUser club.admins target }
    let c2 := if !(c1.members.contains target) then
        { c1 with members := addUser c1.members target }
      else c1
    (c2, redirectBack slug?)
  else (club, redirectBack slug?)

/-- `remove_admin` (`views.py` lines 283-309): admins only; removing the
last admin is silently declined. -/
def removeAdmin (club : Club) (slug? : Option String)
    (caller target : Nat) : Club × ViewResponse :=
  if !(club.admins.contains caller) then (club, ViewResponse.forbidden)
  else if club.admins.contains target then
    if club.admins.length ≤ 1 then (club, redirectBack slug?)
    else ({ club with admins := club.admins.erase target }, redirectBack slug?)
  else (club, redirectBack slug?)

/-!
Claims. -/

theorem append_dash_one (b : String) : b ++ "-" ++ natToStr 1 = b ++ "-1" := by
  have h1s : natToStr 1 = "1" := by decide
  rw [h1s]
  apply String.ext
  rw [string_data_append, string_data_append, string_data_append,
    List.append_assoc]
  congr 1

/-- Claim C1: slug assignment computes a URL-safe slug from the desired
name; when the candidate is already taken by a different entity in the
same language it appends `-1`, `-2`, ... until unique. Concretely, a
first club named "Duikclub Noord" gets slug `duikclub-noord`, and a
second club with the same Dutch name gets slug `duikclub-noord-1`. -/
theorem claim_c1_slug_assignment :
    (∀ (rows : List ClubTr) (lang : String) (self : Nat) (base : String),
      clubSlugTaken rows lang base self = false →
      clubAssignSlug rows lang self base = base) ∧
    (∀ (rows : List ClubTr) (lang : String) (self : Nat) (base : String),
      clubSlugTaken rows lang base self = true →
      clubSlugTaken rows lang (base ++ "-1") self = false →
      clubAssignSlug rows lang self base = base ++ "-1") ∧
    saveClubTranslations [] 1 "Duikclub Noord" "" "" "" =
      [⟨1, "nl", "Duikclub Noord", "", "duikclub-noord"⟩] ∧
    saveClubTranslations [⟨1, "nl", "Duikclub Noord", "", "duikclub-noord"⟩] 2
        "Duikclub Noord" "" "" "" =
      [⟨1, "nl", "Duikclub Noord", "", "duikclub-noord"⟩,
       ⟨2, "nl", "Duikclub Noord", "", "duikclub-noord-1"⟩] := by
  refine ⟨?_, ?_, by decide, by decide⟩
  · intro rows lang self base h
    have hstep : clubAssignSlug rows lang self base =
        if clubSlugTaken rows lang base self then
          assignFrom (fun s => clubSlugTaken rows lang s self) base
            rows.length 1
        else base := rfl
    rw [hstep, h]
    simp
  · intro rows lang self base h1 h2
    cases rows with
    | nil => simp [clubSlugTaken] at h1
    | cons a rest =>
      have hstep : clubAssignSlug (a :: rest) lang self base =
          if clubSlugTaken (a :: rest) lang base self then
            assignFrom (fun s => clubSlugTaken (a :: rest) lang s self) base
              (rest.length + 1) 1
          else base := rfl
      rw [hstep, h1]
      have hcand : slugCand base 1 = base ++ "-1" := append_dash_one base
      have hstep2 : assignFrom (fun s => clubSlugTaken (a :: rest) lang s self)
          base (rest.length + 1) 1 =
          if clubSlugTaken (a :: rest) lang (slugCand base 1) self then
            assignFrom (fun s => clubSlugTaken (a :: rest) lang s self) base
              rest.length 2
          else slugCand base 1 := rfl
      simp only [if_true]
      rw [hstep2, hcand, h2]
      simp

/-- Closed witness for C1: a fresh slug is kept as-is, and a collision
with another club's slug appends `-1`. -/
theorem claim_c1_witness :
    clubAssignSlug [] "nl" 7 "duikclub-noord" = "duikclub-noord" ∧
    clubAssignSlug [⟨1, "nl", "Duikclub Noord", "", "duikclub-noord"⟩] "nl" 2
      "duikclub-noord" = "duikclub-noord" ++ "-1" :=
  ⟨claim_c1_slug_assignment.1 [] "nl" 7 "duikclub-noord" (by decide),
   claim_c1_slug_assignment.2.1
     [⟨1, "nl", "Duikclub Noord", "", "duikclub-noord"⟩] "nl" 2
     "duikclub-noord" (by decide) (by decide)⟩

/-- Claim C2: slug uniqueness is scoped per language. A freshly assigned
slug is never the slug of a different entity in the same language (for
clubs and for locations), the full form save preserves pairwise slug
distinctness per language, and the same spelled name in two different
languages yields the identical slug without any conflict suffix. -/
theorem claim_c2_slug_uniqueness :
    (∀ (rows : List ClubTr) (lang : String) (self : Nat) (base : String),
      clubSlugTaken rows lang (clubAssignSlug rows lang self base) self
        = false) ∧
    (∀ (rows : List ClubTr) (lang : String) (self : Nat) (base : String)
      (r : ClubTr), r ∈ rows → r.lang = lang → r.clubId ≠ self →
      r.slug ≠ clubAssignSlug rows lang self base) ∧
    (∀ (rows : List LocTr) (lang : String) (self : Nat) (base : String),
      locSlugTaken rows lang (locAssignSlug rows lang self base) self
        = false) ∧
    (∀ (rows : List ClubTr) (cid : Nat) (nameNl descNl nameEn descEn : String),
      clubSlugsOk rows →
      clubSlugsOk (saveClubTranslations rows cid nameNl descNl nameEn descEn)) ∧
    (∀ (rows : List LocTr) (lid : Nat)
      (a1 a2 a3 a4 a5 a6 a7 a8 a9 a10 : String),
      locSlugsOk rows →
      locSlugsOk (saveLocNlBlock rows lid a1 a2 a3 a4 a5 a6 a7 a8 a9 a10)) ∧
    (∀ (rows : List LocTr) (lid : Nat)
      (a1 a2 a3 a4 a5 a6 a7 a8 a9 a10 : String),
      locSlugsOk rows →
      locSlugsOk (saveLocEnBlock rows lid a1 a2 a3 a4 a5 a6 a7 a8 a9 a10)) ∧
    clubAssignSlug [⟨1, "en", "Reef aan Zee", "", "reef-aan-zee"⟩] "nl" 2
      "reef-aan-zee" = "reef-aan-zee" :=
  ⟨clubAssignSlug_not_taken,
   fun _ _ _ _ _ hr hlang hid => clubAssignSlug_ne_slug hr hlang hid,
   locAssignSlug_not_taken,
   clubSlugsOk_saveClubTranslations,
   locSlugsOk_saveLocNlBlock,
   locSlugsOk_saveLocEnBlock,
   by decide⟩

/-- Closed witness for C2: a slug assigned next to an existing foreign
row in the same language is fresh and differs from that row's slug. -/
theorem claim_c2_witness :
    clubSlugTaken [⟨1, "nl", "A", "", "a"⟩] "nl"
      (clubAssignSlug [⟨1, "nl", "A", "", "a"⟩] "nl" 2 "a") 2 = false ∧
    "a" ≠ clubAssignSlug [⟨1, "nl", "A", "", "a"⟩] "nl" 2 "a" :=
  ⟨claim_c2_slug_uniqueness.1 [⟨1, "nl", "A", "", "a"⟩] "nl" 2 "a",
   claim_c2_slug_uniqueness.2.1 [⟨1, "nl", "A", "", "a"⟩] "nl" 2 "a"
     ⟨1, "nl", "A", "", "a"⟩ (List.mem_singleton.mpr rfl) rfl (by decide)⟩

theorem applySuggestedSlug_locId (rows : List LocTr) (lid : Nat)
    (lang : String) (tr : LocTr) :
    (applySuggestedSlug rows lid lang tr).locId = tr.locId := by
  unfold applySuggestedSlug
  split <;> rfl

theorem applySuggestedSlug_lang (rows : List LocTr) (lid : Nat)
    (lang : String) (tr : LocTr) :
    (applySuggestedSlug rows lid lang tr).lang = tr.lang := by
  unfold applySuggestedSlug
  split <;> rfl

theorem applySuggestedSlug_name (rows : List LocTr) (lid : Nat)
    (lang : String) (tr : LocTr) :
    (applySuggestedSlug rows lid lang tr).name = tr.name := by
  unfold applySuggestedSlug
  split <;> rfl

theorem applyChanges_approved_snd (loc : DiveLoc) (rows : List LocTr)
    (sug : Suggestion) (happ : sug.status = "approved") :
    (applyChanges loc rows sug).2 =
      upsertLocTr rows (applySuggestedSlug rows loc.locId sug.targetLang
        (match locFindTr rows loc.locId sug.targetLang with
         | some t => mergeSuggestedTr t sug
         | none => defaultSuggestedTr loc.locId sug.targetLang sug)) := by
  unfold applyChanges
  rw [happ]
  rfl

theorem applyChanges_approved_fst (loc : DiveLoc) (rows : List LocTr)
    (sug : Suggestion) (happ : sug.status = "approved") :
    (applyChanges loc rows sug).1 =
      { loc with
        country := if sug.suggestedCountry.isSome then sug.suggestedCountry
          else loc.country,
        latitude := if sug.suggestedLatitude.isSome then sug.suggestedLatitude
          else loc.latitude,
        longitude := if sug.suggestedLongitude.isSome then
          sug.suggestedLongitude else loc.longitude } := by
  unfold applyChanges
  rw [happ]
  rfl

/-- Claim C3: the suggestion merge applies blank-keeps-old semantics
field by field. For an approved suggestion whose target translation
exists, the resulting translation row is the old row with exactly the
non-blank suggested fields overwritten (plus a recomputed slug); blank
fields — the name included — keep their old values, and the location's
nullable fields follow the same pattern. -/
theorem claim_c3_blank_keeps_old (loc : DiveLoc) (rows : List LocTr)
    (sug : Suggestion) (t : LocTr) (happ : sug.status = "approved")
    (hfind : locFindTr rows loc.locId sug.targetLang = some t) :
    locFindTr (applyChanges loc rows sug).2 loc.locId sug.targetLang =
      some (applySuggestedSlug rows loc.locId sug.targetLang
        (mergeSuggestedTr t sug)) ∧
    (applySuggestedSlug rows loc.locId sug.targetLang
      (mergeSuggestedTr t sug)).name = (mergeSuggestedTr t sug).name ∧
    (mergeSuggestedTr t sug).name =
      (if sug.suggestedName = "" then t.name else sug.suggestedName) ∧
    (mergeSuggestedTr t sug).description =
      (if sug.suggestedDescription = "" then t.description
        else sug.suggestedDescription) ∧
    (mergeSuggestedTr t sug).dangers =
      (if sug.suggestedDangers = "" then t.dangers else sug.suggestedDangers) ∧
    (mergeSuggestedTr t sug).nicknames =
      (if sug.suggestedNicknames = "" then t.nicknames
        else sug.suggestedNicknames) ∧
    (mergeSuggestedTr t sug).address =
      (if sug.suggestedAddress = "" then t.address else sug.suggestedAddress) ∧
    (mergeSuggestedTr t sug).parking =
      (if sug.suggestedParking = "" then t.parking else sug.suggestedParking) ∧
    (mergeSuggestedTr t sug).sight =
      (if sug.suggestedSight = "" then t.sight else sug.suggestedSight) ∧
    (mergeSuggestedTr t sug).maxDepth =
      (if sug.suggestedMaxDepth = "" then t.maxDepth
        else sug.suggestedMaxDepth) ∧
    (mergeSuggestedTr t sug).bottomType =
      (if sug.suggestedBottomType = "" then t.bottomType
        else sug.suggestedBottomType) ∧
    (mergeSuggestedTr t sug).typeOfWater =
      (if sug.suggestedTypeOfWater = "" then t.typeOfWater
        else sug.suggestedTypeOfWater) ∧
    (applyChanges loc rows sug).1.country =
      (if sug.suggestedCountry.isSome then sug.suggestedCountry
        else loc.country) ∧
    (applyChanges loc rows sug).1.latitude =
      (if sug.suggestedLatitude.isSome then sug.suggestedLatitude
        else loc.latitude) ∧
    (applyChanges loc rows sug).1.longitude =
      (if sug.suggestedLongitude.isSome then sug.suggestedLongitude
        else loc.longitude) := by
  have hkey := List.find?_some hfind
  simp only [Bool.and_eq_true, beq_iff_eq] at hkey
  obtain ⟨htl, htg⟩ := hkey
  refine ⟨?_, applySuggestedSlug_name _ _ _ _, ?_, ?_, ?_, ?_, ?_, ?_, ?_,
    ?_, ?_, ?_, ?_, ?_, ?_⟩
  · rw [applyChanges_approved_snd loc rows sug happ, hfind]
    set tr1 := applySuggestedSlug rows loc.locId sug.targetLang
      (mergeSuggestedTr t sug) with htr1
    have h1 : tr1.locId = loc.locId := by
      rw [htr1, applySuggestedSlug_locId]
      exact htl
    have h2 : tr1.lang = sug.targetLang := by
      rw [htr1, applySuggestedSlug_lang]
      exact htg
    rw [← h1, ← h2]
    exact locFindTr_upsert_self rows tr1
  · by_cases h : sug.suggestedName = "" <;> simp [mergeSuggestedTr, h]
  · by_cases h : sug.suggestedDescription = "" <;> simp [mergeSuggestedTr, h]
  · by_cases h : sug.suggestedDangers = "" <;> simp [mergeSuggestedTr, h]
  · by_cases h : sug.suggestedNicknames = "" <;> simp [mergeSuggestedTr, h]
  · by_cases h : sug.suggestedAddress = "" <;> simp [mergeSuggestedTr, h]
  · by_cases h : sug.suggestedParking = "" <;> simp [mergeSuggestedTr, h]
  · by_cases h : sug.suggestedSight = "" <;> simp [mergeSuggestedTr, h]
  · by_cases h : sug.suggestedMaxDepth = "" <;> simp [mergeSuggestedTr, h]
  · by_cases h : sug.suggestedBottomType = "" <;> simp [mergeSuggestedTr, h]
  · by_cases h : sug.suggestedTypeOfWater = "" <;> simp [mergeSuggestedTr, h]
  · rw [applyChanges_approved_fst loc rows sug happ]
  · rw [applyChanges_approved_fst loc rows sug happ]
  · rw [applyChanges_approved_fst loc rows sug happ]

/-- Closed witness for C3: an approved suggestion with a blank
`suggested_name` leaves the target translation's name unchanged. -/
theorem claim_c3_witness :
    (mergeSuggestedTr
      ⟨5, "nl", "Oude Naam", "", "", "", "", "", "", "", "", "", "oude-naam"⟩
      ⟨"nl", "", "Nieuwe beschrijving", "", "", "", "", "", "", "", "", none,
        none, none, "approved"⟩).name = "Oude Naam" := by
  have h := (claim_c3_blank_keeps_old ⟨5, none, none, none⟩
    [⟨5, "nl", "Oude Naam", "", "", "", "", "", "", "", "", "", "oude-naam"⟩]
    ⟨"nl", "", "Nieuwe beschrijving", "", "", "", "", "", "", "", "", none,
      none, none, "approved"⟩
    ⟨5, "nl", "Oude Naam", "", "", "", "", "", "", "", "", "", "oude-naam"⟩
    rfl (by decide)).2.2.1
  simpa using h

/-- Claim C4: `apply_changes` mutates the location and its translations
only when the status is `approved`: for `pending` or `rejected` it is a
no-op, and in particular a suggestion that went through
`reject_location_suggestion` never mutates the original location. The
suggestion row itself is never written by `apply_changes` (the embedding
returns only the mutated state because the source reads, and never
writes, `self`). -/
theorem claim_c4_non_approved_noop (loc : DiveLoc) (rows : List LocTr)
    (sug : Suggestion) :
    (sug.status = "pending" ∨ sug.status = "rejected" →
      applyChanges loc rows sug = (loc, rows)) ∧
    applyChanges loc rows (rejectSuggestion sug) = (loc, rows) := by
  constructor
  · intro h
    unfold applyChanges
    rcases h with h | h <;> rw [h] <;> rfl
  · unfold applyChanges rejectSuggestion
    rfl

/-- Closed witness for C4: a pending suggestion leaves the state alone. -/
theorem claim_c4_witness :
    applyChanges ⟨3, none, none, none⟩ []
      ⟨"nl", "X", "", "", "", "", "", "", "", "", "", none, none, none,
        "pending"⟩ = (⟨3, none, none, none⟩, []) :=
  (claim_c4_non_approved_noop ⟨3, none, none, none⟩ []
    ⟨"nl", "X", "", "", "", "", "", "", "", "", "", none, none, none,
      "pending"⟩).1 (Or.inl rfl)

/-- Claim C5: name resolution returns the requested language's
translation name when that translation exists, else the Dutch (default)
translation's name, else the synthesized placeholder — `Location {id}`
for locations and `Unnamed Club` for clubs. -/
theorem claim_c5_name_resolution :
    (∀ (rows : List LocTr) (lid : Nat) (lang : String) (t : LocTr),
      locFindTr rows lid lang = some t →
      locGetNameForLanguage rows lid lang = t.name) ∧
    (∀ (rows : List LocTr) (lid : Nat) (lang : String) (f : LocTr),
      locFindTr rows lid lang = none → locFindTr rows lid "nl" = some f →
      locGetNameForLanguage rows lid lang = f.name) ∧
    (∀ (rows : List LocTr) (lid : Nat) (lang : String),
      locFindTr rows lid lang = none → locFindTr rows lid "nl" = none →
      locGetNameForLanguage rows lid lang = "Location " ++ natToStr lid) ∧
    (∀ (rows : List ClubTr) (cid : Nat) (lang : String) (t : ClubTr),
      clubFindTr rows cid lang = some t →
      clubGetNameForLanguage rows cid lang = t.name) ∧
    (∀ (rows : List ClubTr) (cid : Nat) (lang : String) (f : ClubTr),
      clubFindTr rows cid lang = none → clubFindTr rows cid "nl" = some f →
      clubGetNameForLanguage rows cid lang = f.name) ∧
    (∀ (rows : List ClubTr) (cid : Nat) (lang : String),
      clubFindTr rows cid lang = none → clubFindTr rows cid "nl" = none →
      clubGetNameForLanguage rows cid lang = "Unnamed Club") := by
  refine ⟨?_, ?_, ?_, ?_, ?_, ?_⟩
  · intro rows lid lang t h
    unfold locGetNameForLanguage
    rw [h]
  · intro rows lid lang f h1 h2
    unfold locGetNameForLanguage
    rw [h1, h2]
  · intro rows lid lang h1 h2
    unfold locGetNameForLanguage
    rw [h1, h2]
  · intro rows cid lang t h
    unfold clubGetNameForLanguage
    rw [h]
  · intro rows cid lang f h1 h2
    unfold clubGetNameForLanguage
    rw [h1, h2]
  · intro rows cid lang h1 h2
    unfold clubGetNameForLanguage
    rw [h1, h2]

/-- Closed witness for C5: with no translations at all, both getters
fall through to their placeholders; with only a Dutch row, a lookup in
English falls back to the Dutch name. -/
theorem claim_c5_witness :
    locGetNameForLanguage [] 9 "en" = "Location " ++ natToStr 9 ∧
    clubGetNameForLanguage [] 9 "en" = "Unnamed Club" ∧
    clubGetNameForLanguage [⟨4, "nl", "Duikclub Zuid", "", "duikclub-zuid"⟩] 4
      "en" = "Duikclub Zuid" :=
  ⟨claim_c5_name_resolution.2.2.1 [] 9 "en" rfl rfl,
   claim_c5_name_resolution.2.2.2.2.2 [] 9 "en" rfl rfl,
   claim_c5_name_resolution.2.2.2.2.1
     [⟨4, "nl", "Duikclub Zuid", "", "duikclub-zuid"⟩] 4 "en"
     ⟨4, "nl", "Duikclub Zuid", "", "duikclub-zuid"⟩ rfl rfl⟩

/-- Claim C6: a club always retains at least one admin. When the admin
set has exactly one element, `remove_admin` targeting that sole admin
changes no state, and an admin caller is sent back to the club's current
view (the club detail page when a slug exists, else the club list). -/
theorem claim_c6_last_admin (club : Club) (slug? : Option String)
    (caller a : Nat) (h : club.admins = [a]) :
    (removeAdmin club slug? caller a).1 = club ∧
    (caller = a → (removeAdmin club slug? caller a).2 = redirectBack slug?) := by
  constructor
  · by_cases hc : ([a].contains caller) = true
    · simp [removeAdmin, h, hc]
      split <;> rfl
    · simp [removeAdmin, h, hc]
      split <;> rfl
  · intro hcall
    subst hcall
    simp [removeAdmin, h]

/-- Closed witness for C6: the sole admin trying to remove themselves is
bounced back to the club page with nothing changed. -/
theorem claim_c6_witness :
    (removeAdmin ⟨1, 7, [7], [7], []⟩ (some "klub") 7 7).1 =
      ⟨1, 7, [7], [7], []⟩ ∧
    (removeAdmin ⟨1, 7, [7], [7], []⟩ (some "klub") 7 7).2 =
      redirectBack (some "klub") :=
  ⟨(claim_c6_last_admin ⟨1, 7, [7], [7], []⟩ (some "klub") 7 7 rfl).1,
   (claim_c6_last_admin ⟨1, 7, [7], [7], []⟩ (some "klub") 7 7 rfl).2 rfl⟩

/-- Counterexample to claim C7: the creator (user 1) is an admin right
after creation, but after user 2 joins, is approved, is promoted to
admin, and then removes user 1 via `remove_admin`, the creator is no
longer in the admins set — `remove_admin` only protects the *last*
admin, not the creator. -/
theorem claim_c7_counterexample :
    (clubSave ⟨1, 1, [], [], []⟩).admins.contains 1 = true ∧
    ((removeAdmin
        (promoteToAdmin
          (approveMember
            (requestJoinClub (clubSave ⟨1, 1, [], [], []⟩) none 2).1
            none 1 2).1
          none 1 2).1
        none 2 1).1).admins.contains 1 = false := by
  decide

/-- Claim C7 as amended: every save of a club (creation included) puts
the creator in the admins set; the membership survives saves, but an
admin-removal targeting the creator while another admin remains does
remove the creator from the admins. -/
theorem claim_c7_creator_admin_after_save (club : Club) :
    (clubSave club).admins.contains club.createdBy = true := by
  show (addUser club.admins club.createdBy).contains club.createdBy = true
  unfold addUser
  by_cases h : club.admins.contains club.createdBy = true
  · rw [if_pos h]
    exact h
  · rw [if_neg h]
    simp

/-- Claim C8: the two per-language translation saves are isolated, in
`DiveClubForm._save_translations` and in
`DiveLocationForm._save_translations` alike. An exception in the Dutch
block is caught (the function still returns a database state) and the
English block still runs on the pre-Dutch state; an exception in the
English block keeps the Dutch block's completed write; with no
exceptions the two blocks run in sequence. -/
theorem claim_c8_failure_isolated :
    (∀ (rows : List ClubTr) (cid : Nat) (nameEn descEn e : String),
      saveClubTranslationsWith rows (fun _ => Except.error e)
        (fun db => Except.ok (saveClubEnBlock db cid nameEn descEn)) =
      saveClubEnBlock rows cid nameEn descEn) ∧
    (∀ (rows : List ClubTr) (cid : Nat) (nameNl descNl e : String),
      saveClubTranslationsWith rows
        (fun db => Except.ok (saveClubNlBlock db cid nameNl descNl))
        (fun _ => Except.error e) =
      saveClubNlBlock rows cid nameNl descNl) ∧
    (∀ (rows : List ClubTr) (cid : Nat) (nameNl descNl nameEn descEn : String),
      saveClubTranslations rows cid nameNl descNl nameEn descEn =
      saveClubEnBlock (saveClubNlBlock rows cid nameNl descNl) cid
        nameEn descEn) ∧
    (∀ (rows : List LocTr) (lid : Nat)
      (b1 b2 b3 b4 b5 b6 b7 b8 b9 b10 e : String),
      saveLocTranslationsWith rows (fun _ => Except.error e)
        (fun db => Except.ok
          (saveLocEnBlock db lid b1 b2 b3 b4 b5 b6 b7 b8 b9 b10)) =
      saveLocEnBlock rows lid b1 b2 b3 b4 b5 b6 b7 b8 b9 b10) ∧
    (∀ (rows : List LocTr) (lid : Nat)
      (a1 a2 a3 a4 a5 a6 a7 a8 a9 a10 e : String),
      saveLocTranslationsWith rows
        (fun db => Except.ok
          (saveLocNlBlock db lid a1 a2 a3 a4 a5 a6 a7 a8 a9 a10))
        (fun _ => Except.error e) =
      saveLocNlBlock rows lid a1 a2 a3 a4 a5 a6 a7 a8 a9 a10) ∧
    (∀ (rows : List LocTr) (lid : Nat)
      (a1 a2 a3 a4 a5 a6 a7 a8 a9 a10
        b1 b2 b3 b4 b5 b6 b7 b8 b9 b10 : String),
      saveLocTranslations rows lid a1 a2 a3 a4 a5 a6 a7 a8 a9 a10
        b1 b2 b3 b4 b5 b6 b7 b8 b9 b10 =
      saveLocEnBlock (saveLocNlBlock rows lid a1 a2 a3 a4 a5 a6 a7 a8 a9 a10)
        lid b1 b2 b3 b4 b5 b6 b7 b8 b9 b10) :=
  ⟨fun _ _ _ _ _ => rfl, fun _ _ _ _ _ => rfl, fun _ _ _ _ _ _ => rfl,
   fun _ _ _ _ _ _ _ _ _ _ _ _ _ => rfl,
   fun _ _ _ _ _ _ _ _ _ _ _ _ _ => rfl,
   fun _ _ _ _ _ _ _ _ _ _ _ _ _ _ _ _ _ _ _ _ _ _ => rfl⟩

theorem locAvailable_iff (rows : List LocTr) (lang : String) (i : Nat) :
    locAvailable rows i lang = true ↔
      ((∃ t ∈ rows, t.locId = i ∧ t.lang = lang) ∧
        ¬∃ t ∈ rows, t.locId = i ∧ t.name = "") := by
  unfold locAvailable
  constructor
  · intro h
    simp only [Bool.and_eq_true, Bool.not_eq_true'] at h
    obtain ⟨h1, h2⟩ := h
    constructor
    · rcases List.any_eq_true.mp h1 with ⟨t, ht, hp⟩
      simp only [Bool.and_eq_true, beq_iff_eq] at hp
      exact ⟨t, ht, hp.1, hp.2⟩
    · rw [h1, Bool.true_and] at h2
      rintro ⟨t, ht, hp1, hp2⟩
      have hx := List.any_eq_false.mp h2 t ht
      apply hx
      simp [hp1, hp2]
  · rintro ⟨⟨t, ht, h1, h2⟩, hno⟩
    simp only [Bool.and_eq_true, Bool.not_eq_true']
    have hlang : (rows.any fun t => t.locId == i && t.lang == lang) = true :=
      List.any_eq_true.mpr ⟨t, ht, by simp [h1, h2]⟩
    refine ⟨hlang, ?_⟩
    rw [hlang, Bool.true_and, List.any_eq_false]
    intro x hx hp
    simp only [Bool.and_eq_true, beq_iff_eq] at hp
    exact hno ⟨x, hx, hp.1, hp.2⟩

theorem clubAvailable_iff (rows : List ClubTr) (lang : String) (i : Nat) :
    clubAvailable rows i lang = true ↔
      ((∃ t ∈ rows, t.clubId = i ∧ t.lang = lang) ∧
        ¬∃ t ∈ rows, t.clubId = i ∧ t.name = "") := by
  unfold clubAvailable
  constructor
  · intro h
    simp only [Bool.and_eq_true, Bool.not_eq_true'] at h
    obtain ⟨h1, h2⟩ := h
    constructor
    · rcases List.any_eq_true.mp h1 with ⟨t, ht, hp⟩
      simp only [Bool.and_eq_true, beq_iff_eq] at hp
      exact ⟨t, ht, hp.1, hp.2⟩
    · rw [h1, Bool.true_and] at h2
      rintro ⟨t, ht, hp1, hp2⟩
      have hx := List.any_eq_false.mp h2 t ht
      apply hx
      simp [hp1, hp2]
  · rintro ⟨⟨t, ht, h1, h2⟩, hno⟩
    simp only [Bool.and_eq_true, Bool.not_eq_true']
    have hlang : (rows.any fun t => t.clubId == i && t.lang == lang) = true :=
      List.any_eq_true.mpr ⟨t, ht, by simp [h1, h2]⟩
    refine ⟨hlang, ?_⟩
    rw [hlang, Bool.true_and, List.any_eq_false]
    intro x hx hp
    simp only [Bool.and_eq_true, beq_iff_eq] at hp
    exact hno ⟨x, hx, hp.1, hp.2⟩

theorem locAvailable_name_nonempty {rows : List LocTr} {lang : String}
    {i : Nat} (h : locAvailable rows i lang = true) :
    ∃ t ∈ rows, t.locId = i ∧ t.lang = lang ∧ t.name ≠ "" := by
  rcases (locAvailable_iff rows lang i).mp h with ⟨⟨t, ht, h1, h2⟩, hno⟩
  exact ⟨t, ht, h1, h2, fun hname => hno ⟨t, ht, h1, hname⟩⟩

theorem clubAvailable_name_nonempty {rows : List ClubTr} {lang : String}
    {i : Nat} (h : clubAvailable rows i lang = true) :
    ∃ t ∈ rows, t.clubId = i ∧ t.lang = lang ∧ t.name ≠ "" := by
  rcases (clubAvailable_iff rows lang i).mp h with ⟨⟨t, ht, h1, h2⟩, hno⟩
  exact ⟨t, ht, h1, h2, fun hname => hno ⟨t, ht, h1, hname⟩⟩

/-- Counterexample to claim C9 as stated: the listing is not exactly
"entities with a non-empty name in the current language". Club 1 has the
non-empty English name `Foo`, yet the English listing drops it, because
its blank-named Dutch row also satisfies Django's `exclude` over the
multivalued `translations` relation (the two exclude conditions may hold
of different rows). -/
theorem claim_c9_counterexample :
    ¬(1 ∈ clubGetForCurrentLanguage
        [⟨1, "en", "Foo", "", "foo"⟩, ⟨1, "nl", "", "", "club-1"⟩] [1] "en" ↔
      (1 ∈ [1] ∧
        ∃ t ∈ [(⟨1, "en", "Foo", "", "foo"⟩ : ClubTr),
          ⟨1, "nl", "", "", "club-1"⟩],
          t.clubId = 1 ∧ t.lang = "en" ∧ t.name ≠ "")) := by
  decide

/-- Claim C9 as amended: the per-language listing filter returns the
entities that have a translation row for the current language and no
blank-named translation row in *any* language. Consequently every
returned entity does have a current-language translation with a
non-empty name (and entities translated only into other languages are
excluded), but an entity with a non-empty current-language name can
still be missing from the listing — a state the club form itself
creates when saved with a blank Dutch name, as the last conjunct shows. -/
theorem claim_c9_listing_filter :
    (∀ (rows : List LocTr) (ids : List Nat) (lang : String) (i : Nat),
      i ∈ locGetForCurrentLanguage rows ids lang ↔
        (i ∈ ids ∧ (∃ t ∈ rows, t.locId = i ∧ t.lang = lang) ∧
          ¬∃ t ∈ rows, t.locId = i ∧ t.name = "")) ∧
    (∀ (rows : List ClubTr) (ids : List Nat) (lang : String) (i : Nat),
      i ∈ clubGetForCurrentLanguage rows ids lang ↔
        (i ∈ ids ∧ (∃ t ∈ rows, t.clubId = i ∧ t.lang = lang) ∧
          ¬∃ t ∈ rows, t.clubId = i ∧ t.name = "")) ∧
    (∀ (rows : List LocTr) (ids : List Nat) (lang : String) (i : Nat),
      i ∈ locGetForCurrentLanguage rows ids lang →
      ∃ t ∈ rows, t.locId = i ∧ t.lang = lang ∧ t.name ≠ "") ∧
    (∀ (rows : List ClubTr) (ids : List Nat) (lang : String) (i : Nat),
      i ∈ clubGetForCurrentLanguage rows ids lang →
      ∃ t ∈ rows, t.clubId = i ∧ t.lang = lang ∧ t.name ≠ "") ∧
    (clubGetForCurrentLanguage (saveClubTranslations [] 1 "" "" "Foo" "")
        [1] "en" = [] ∧
      ∃ t ∈ saveClubTranslations [] 1 "" "" "Foo" "",
        t.clubId = 1 ∧ t.lang = "en" ∧ t.name ≠ "") := by
  refine ⟨?_, ?_, ?_, ?_, by decide⟩
  · intro rows ids lang i
    unfold locGetForCurrentLanguage
    rw [List.mem_filter, locAvailable_iff]
  · intro rows ids lang i
    unfold clubGetForCurrentLanguage
    rw [List.mem_filter, clubAvailable_iff]
  · intro rows ids lang i h
    unfold locGetForCurrentLanguage at h
    rw [List.mem_filter] at h
    exact locAvailable_name_nonempty h.2
  · intro rows ids lang i h
    unfold clubGetForCurrentLanguage at h
    rw [List.mem_filter] at h
    exact clubAvailable_name_nonempty h.2

/-- Closed witness for C9: a location whose only row is a named Dutch
translation is listed under `nl`, and the listing membership implies a
named current-language row. -/
theorem claim_c9_witness :
    ∃ t ∈ [(⟨1, "nl", "Zeemeer", "", "", "", "", "", "", "", "", "",
      "zeemeer"⟩ : LocTr)], t.locId = 1 ∧ t.lang = "nl" ∧ t.name ≠ "" :=
  claim_c9_listing_filter.2.2.1
    [⟨1, "nl", "Zeemeer", "", "", "", "", "", "", "", "", "", "zeemeer"⟩]
    [1, 2] "nl" 1 (by decide)

theorem locSlugTaken_upsert_self (rows : List LocTr) (r : LocTr)
    (lang slug : String) (self : Nat) (hid : r.locId = self) :
    locSlugTaken (upsertLocTr rows r) lang slug self =
      locSlugTaken rows lang slug self := by
  subst hid
  unfold upsertLocTr
  by_cases hany : (rows.any fun t => locKey t r.locId r.lang) = true
  · simp only [if_pos hany, locSlugTaken, List.any_map]
    apply list_any_ext
    intro t ht
    by_cases hk : locKey t r.locId r.lang = true
    · have hcid : t.locId = r.locId := by
        have h2 := hk
        simp only [locKey, Bool.and_eq_true, beq_iff_eq] at h2
        exact h2.1
      simp [Function.comp, hk, hcid]
    · simp only [Bool.not_eq_true] at hk
      simp [Function.comp, hk]
  · simp only [if_neg hany, locSlugTaken, List.any_append]
    simp

theorem length_le_upsertLocTr (rows : List LocTr) (r : LocTr) :
    rows.length ≤ (upsertLocTr rows r).length := by
  unfold upsertLocTr
  by_cases hany : (rows.any fun t => locKey t r.locId r.lang) = true
  · simp [hany]
  · simp [hany]

theorem locAssignSlug_upsert_self (rows : List LocTr) (r : LocTr)
    (lang : String) (self : Nat) (base : String) (hid : r.locId = self) :
    locAssignSlug (upsertLocTr rows r) lang self base =
      locAssignSlug rows lang self base := by
  have hfun : (fun s => locSlugTaken (upsertLocTr rows r) lang s self) =
      fun s => locSlugTaken rows lang s self :=
    funext fun s => locSlugTaken_upsert_self rows r lang s self hid
  unfold locAssignSlug
  rw [hfun]
  rcases locSlugTaken_exists_free rows lang self base with ⟨j, hj, hfree⟩
  have hlen := length_le_upsertLocTr rows r
  exact assignFrom_fuel_irrel _ base _ _ 0 ⟨j, by omega, by omega, by omega, hfree⟩

/-- Claim C10: slug assignment is idempotent for an unchanged name. The
collision check excludes the entity's own row, so re-running the save
block with the same inputs reproduces the same row and slug, and
upserting an entity's own row never changes the slug the loop assigns
(for clubs and for locations alike). -/
theorem claim_c10_idempotent :
    (∀ (rows : List ClubTr) (cid : Nat) (n d : String),
      saveClubNlBlock (saveClubNlBlock rows cid n d) cid n d =
        saveClubNlBlock rows cid n d) ∧
    (∀ (rows : List ClubTr) (r : ClubTr) (lang : String) (self : Nat)
      (base : String), r.clubId = self →
      clubAssignSlug (upsertClubTr rows r) lang self base =
        clubAssignSlug rows lang self base) ∧
    (∀ (rows : List LocTr) (r : LocTr) (lang : String) (self : Nat)
      (base : String), r.locId = self →
      locAssignSlug (upsertLocTr rows r) lang self base =
        locAssignSlug rows lang self base) :=
  ⟨saveClubNlBlock_idem, clubAssignSlug_upsert_self, locAssignSlug_upsert_self⟩

/-- Closed witness for C10: re-saving the only club with its own name
keeps slug `a`; the entity's own row does not trigger a `-1` suffix. -/
theorem claim_c10_witness :
    clubAssignSlug (upsertClubTr [] ⟨3, "nl", "A", "", "a"⟩) "nl" 3 "a" =
      clubAssignSlug [] "nl" 3 "a" :=
  claim_c10_idempotent.2.1 [] ⟨3, "nl", "A", "", "a"⟩ "nl" 3 "a" rfl

